import Mathlib

/-!
# Verification of the Formula-1 DCA programs

Shallow embedding of the two on-chain programs of this repository:

* `session_keys` (src/programs/session-keys/src/lib.rs): delegated,
  capped, expiring session-key authorizations.
* `dca_vault` (src/programs/dca-vault/src/lib.rs): a recurring
  dollar-cost-averaging vault state machine.

Public keys are modelled as natural numbers, `u64`/`u16`/`u8` fields as
`Nat`, and `i64` timestamps as `Int`.  Each instruction handler becomes a
pure Lean function on the account state it mutates; the runtime clock,
token balances observed by the handler, and the signer are explicit
arguments.  A handler that `require!`s returns the unchanged state
together with the error; the out-of-bounds array access reachable in
`validate_session` is modelled by an `Option` result (`none` = aborted
access).  Effects issued before a failing check (the outbound token
transfer of `execute_dca`) are recorded in the result, mirroring the
straight-line order of the source.
-/

namespace DcaVerify

abbrev Pubkey := Nat

/-! ## session_keys program -/

/-- Error codes of the session_keys program. -/
inductive SessErr where
  | SessionKeyNotActive
  | SessionKeyExpired
  | AmountExceedsPerTxLimit
  | AmountExceedsTotalLimit
  | ProgramNotAllowed
deriving DecidableEq, Repr

/-- The `SessionKey` account (src/programs/session-keys/src/lib.rs, `#[account] pub struct SessionKey`).
`allowed_programs` is the fixed `[Pubkey; 10]` array, kept as a list of
length 10. -/
structure SessionKey where
  owner : Pubkey
  session_pubkey : Pubkey
  max_amount_per_tx : Nat
  max_total_amount : Nat
  spent_amount : Nat
  created_at : Int
  expiry_timestamp : Int
  allowed_programs : List Pubkey
  allowed_programs_count : Nat
  is_active : Bool
  bump : Nat
deriving DecidableEq, Repr

/-- The copy loop of `create_session_key`: writes `allowed_programs[i] = progs[i]`
for `i < 10` into the zero-initialized fixed array, dropping later entries. -/
def storePrograms (progs : List Pubkey) : List Pubkey :=
  progs.take 10 ++ List.replicate (10 - progs.length) 0

/-- `create_session_key` handler.  Note `allowed_programs.len() as u8`
truncates modulo 256, and entries beyond index 9 are silently dropped by
the copy loop; the handler never rejects an over-long list. -/
def create_session_key (owner session_pubkey : Pubkey)
    (max_amount_per_tx max_total_amount : Nat) (expiry_timestamp : Int)
    (allowed_programs : List Pubkey) (now : Int) (bump : Nat) : SessionKey :=
  { owner := owner
    session_pubkey := session_pubkey
    max_amount_per_tx := max_amount_per_tx
    max_total_amount := max_total_amount
    spent_amount := 0
    created_at := now
    expiry_timestamp := expiry_timestamp
    allowed_programs := storePrograms allowed_programs
    allowed_programs_count := allowed_programs.length % 256
    is_active := true
    bump := bump }

/-- The allow-list loop of `validate_session`:
`for i in 0..count { if arr[i] == pid { found = true; break } }`.
`i` is the running index, `rem` the remaining iterations; `none` models the
aborting out-of-bounds array access when `i` reaches the array length with
iterations left. -/
def findLoop (arr : List Pubkey) (pid : Pubkey) : Nat → Nat → Option Bool
  | _, 0 => some false
  | i, rem + 1 =>
    match arr.get? i with
    | none => none
    | some p => if p = pid then some true else findLoop arr pid (i + 1) rem

/-- `validate_session` handler.  Returns `none` when the allow-list loop
aborts with an out-of-bounds access; otherwise `some (sk, some e)` for a
failed `require!` (state unchanged) and `some (sk, none)` on success (with
`spent_amount` incremented). -/
def validate_session (sk : SessionKey) (program_id : Pubkey) (amount : Nat)
    (now : Int) : Option (SessionKey × Option SessErr) :=
  if ¬ sk.is_active then some (sk, some .SessionKeyNotActive)
  else if ¬ now < sk.expiry_timestamp then some (sk, some .SessionKeyExpired)
  else if ¬ amount ≤ sk.max_amount_per_tx then some (sk, some .AmountExceedsPerTxLimit)
  else if ¬ sk.spent_amount + amount ≤ sk.max_total_amount then
    some (sk, some .AmountExceedsTotalLimit)
  else
    match findLoop sk.allowed_programs program_id 0 sk.allowed_programs_count with
    | none => none
    | some false => some (sk, some .ProgramNotAllowed)
    | some true =>
      some ({ sk with spent_amount := sk.spent_amount + amount }, none)

/-- `revoke_session_key` handler: sets `is_active = false`. -/
def revoke_session_key (sk : SessionKey) : SessionKey :=
  { sk with is_active := false }

/-- `update_limits` handler: overwrites both caps, with no floor check
against `spent_amount`. -/
def update_limits (sk : SessionKey) (max_amount_per_tx max_total_amount : Nat) :
    SessionKey :=
  { sk with max_amount_per_tx := max_amount_per_tx,
            max_total_amount := max_total_amount }

/-! ## dca_vault program -/

/-- Error codes of the dca_vault program. -/
inductive DcaErr where
  | VaultNotActive
  | TooEarlyToExecute
  | AllCyclesCompleted
  | InsufficientBalance
  | VaultNotPaused
  | SlippageExceeded
deriving DecidableEq, Repr

/-- The `Vault` account (src/programs/dca-vault/src/lib.rs, `#[account] pub struct Vault`). -/
structure Vault where
  owner : Pubkey
  source_mint : Pubkey
  dest_mint : Pubkey
  amount_per_cycle : Nat
  frequency_seconds : Int
  total_cycles : Nat
  executed_cycles : Nat
  total_deposited : Nat
  total_received : Nat
  last_execution : Int
  next_execution : Int
  status : Nat
  bump : Nat
deriving DecidableEq, Repr

def Vault.STATUS_ACTIVE : Nat := 0
def Vault.STATUS_PAUSED : Nat := 1
def Vault.STATUS_COMPLETED : Nat := 2
def Vault.STATUS_CANCELLED : Nat := 3

/-- `initialize_vault` handler. -/
def init_vault (owner source_mint dest_mint : Pubkey)
    (amount_per_cycle : Nat) (frequency_seconds : Int) (total_cycles : Nat)
    (now : Int) (bump : Nat) : Vault :=
  { owner := owner
    source_mint := source_mint
    dest_mint := dest_mint
    amount_per_cycle := amount_per_cycle
    frequency_seconds := frequency_seconds
    total_cycles := total_cycles
    executed_cycles := 0
    total_deposited := 0
    total_received := 0
    last_execution := now
    next_execution := now + frequency_seconds
    status := Vault.STATUS_ACTIVE
    bump := bump }

/-- Result of one `execute_dca` call: the vault state, the custody
(source token account) balance, whether the outbound transfer of
`amount_per_cycle` was issued, and the error if any. -/
structure DcaResult where
  vault : Vault
  srcBal : Nat
  outbound : Bool
  err : Option DcaErr
deriving DecidableEq, Repr

/-- `execute_dca` handler.  `session_authority` is the unchecked signer
account of the `ExecuteDCA` context (present but never read by the
handler).  `srcBal` is `vault_token_account.amount`, `destBefore` the
destination balance read before the transfer, `destAfter` the balance
observed after `reload()` — an environment input, since the swap
collaborator credits it.  The outbound transfer precedes the slippage
check, so a `SlippageExceeded` failure still reports `outbound = true`
with the custody balance already reduced. -/
def execute_dca (session_authority : Pubkey) (v : Vault)
    (srcBal destBefore destAfter : Nat) (now : Int) (min_amount_out : Nat) :
    DcaResult :=
  if ¬ v.next_execution ≤ now then
    ⟨v, srcBal, false, some .TooEarlyToExecute⟩
  else if ¬ v.executed_cycles < v.total_cycles then
    ⟨v, srcBal, false, some .AllCyclesCompleted⟩
  else if ¬ v.status = Vault.STATUS_ACTIVE then
    ⟨v, srcBal, false, some .VaultNotActive⟩
  else if ¬ v.amount_per_cycle ≤ srcBal then
    ⟨v, srcBal, false, some .InsufficientBalance⟩
  else
    let srcBal' := srcBal - v.amount_per_cycle
    let amount_received := destAfter - destBefore
    if ¬ min_amount_out ≤ amount_received then
      ⟨v, srcBal', true, some .SlippageExceeded⟩
    else
      let executed' := v.executed_cycles + 1
      ⟨{ v with executed_cycles := executed',
                total_received := v.total_received + amount_received,
                last_execution := now,
                next_execution := now + v.frequency_seconds,
                status := if v.total_cycles ≤ executed' then Vault.STATUS_COMPLETED
                          else v.status },
        srcBal', true, none⟩

/-- `deposit` handler: requires an Active vault, then moves `amount` into
custody and bumps `total_deposited`. -/
def deposit (v : Vault) (srcBal amount : Nat) : Vault × Nat × Option DcaErr :=
  if ¬ v.status = Vault.STATUS_ACTIVE then (v, srcBal, some .VaultNotActive)
  else ({ v with total_deposited := v.total_deposited + amount },
        srcBal + amount, none)

/-- `pause_vault` handler: sets the status to Paused with no status
precondition. -/
def pause_vault (v : Vault) : Vault :=
  { v with status := Vault.STATUS_PAUSED }

/-- `resume_vault` handler: requires Paused, then reactivates and
recomputes `next_execution = now + frequency_seconds`; `last_execution`
is not touched. -/
def resume_vault (v : Vault) (now : Int) : Vault × Option DcaErr :=
  if ¬ v.status = Vault.STATUS_PAUSED then (v, some .VaultNotPaused)
  else ({ v with status := Vault.STATUS_ACTIVE,
                 next_execution := now + v.frequency_seconds }, none)

/-- `close_vault` handler: returns the residual custody balance to the
owner and closes the account (no status field is ever written). -/
def close_vault (srcBal : Nat) : Nat :=
  srcBal

/-! ## The combined system

Both programs side by side, as deployed: one session-key account, one
vault with its custody and destination token balances.  Each operation
carries the environment inputs its handler reads (clock, signer, the
destination balance observed after the swap). -/

/-- One client-visible instruction against the combined deployment. -/
inductive Op where
  | createSession (session_pubkey : Pubkey) (max_amount_per_tx max_total_amount : Nat)
      (expiry_timestamp : Int) (allowed_programs : List Pubkey) (now : Int)
  | validateSession (program_id : Pubkey) (amount : Nat) (now : Int)
  | revokeSession
  | updateLimits (max_amount_per_tx max_total_amount : Nat)
  | initVault (amount_per_cycle : Nat) (frequency_seconds : Int) (total_cycles : Nat)
      (now : Int)
  | depositOp (amount : Nat)
  | execDca (session_authority : Pubkey) (destAfter : Nat) (now : Int)
      (min_amount_out : Nat)
  | pauseOp
  | resumeOp (now : Int)
  | closeOp
deriving DecidableEq, Repr

/-- Combined state: the (possibly not yet created / closed) accounts and
the vault's two token balances. -/
structure Sys where
  session : Option SessionKey
  vault : Option Vault
  srcBal : Nat
  destBal : Nat
deriving DecidableEq, Repr

/-- What one step makes observable: whether custody funds left the vault,
and whether a `validate_session` call succeeded. -/
structure Obs where
  movedFunds : Bool
  validateOk : Bool
deriving DecidableEq, Repr

/-- The empty deployment: no accounts, no balances. -/
def Sys.start : Sys := ⟨none, none, 0, 0⟩

/-- One step of the combined system.  An instruction against a missing
account, or one whose handler fails, leaves the state unchanged (a failed
transaction's writes are dropped) — except the documented straight-line
effect of `execute_dca`, whose outbound transfer is kept even when the
slippage check then fails. -/
def stepSys (s : Sys) (op : Op) : Sys × Obs :=
  match op with
  | .createSession spk ptx ttl expiry progs now =>
    match s.session with
    | some _ => (s, ⟨false, false⟩)
    | none =>
      ({ s with session := some (create_session_key 0 spk ptx ttl expiry progs now 0) },
       ⟨false, false⟩)
  | .validateSession pid amount now =>
    match s.session with
    | none => (s, ⟨false, false⟩)
    | some sk =>
      match validate_session sk pid amount now with
      | some (sk', none) => ({ s with session := some sk' }, ⟨false, true⟩)
      | _ => (s, ⟨false, false⟩)
  | .revokeSession =>
    match s.session with
    | none => (s, ⟨false, false⟩)
    | some sk => ({ s with session := some (revoke_session_key sk) }, ⟨false, false⟩)
  | .updateLimits ptx ttl =>
    match s.session with
    | none => (s, ⟨false, false⟩)
    | some sk => ({ s with session := some (update_limits sk ptx ttl) }, ⟨false, false⟩)
  | .initVault apc freq tc now =>
    match s.vault with
    | some _ => (s, ⟨false, false⟩)
    | none => ({ s with vault := some (init_vault 0 0 0 apc freq tc now 0) }, ⟨false, false⟩)
  | .depositOp amount =>
    match s.vault with
    | none => (s, ⟨false, false⟩)
    | some v =>
      match deposit v s.srcBal amount with
      | (v', srcBal', none) => ({ s with vault := some v', srcBal := srcBal' }, ⟨false, false⟩)
      | _ => (s, ⟨false, false⟩)
  | .execDca auth destAfter now minOut =>
    match s.vault with
    | none => (s, ⟨false, false⟩)
    | some v =>
      let r := execute_dca auth v s.srcBal s.destBal destAfter now minOut
      ({ s with vault := some r.vault, srcBal := r.srcBal,
                destBal := if r.outbound then destAfter else s.destBal },
       ⟨r.outbound, false⟩)
  | .pauseOp =>
    match s.vault with
    | none => (s, ⟨false, false⟩)
    | some v => ({ s with vault := some (pause_vault v) }, ⟨false, false⟩)
  | .resumeOp now =>
    match s.vault with
    | none => (s, ⟨false, false⟩)
    | some v =>
      match resume_vault v now with
      | (v', none) => ({ s with vault := some v' }, ⟨false, false⟩)
      | _ => (s, ⟨false, false⟩)
  | .closeOp =>
    match s.vault with
    | none => (s, ⟨false, false⟩)
    | some _ => ({ s with vault := none, srcBal := 0 }, ⟨false, false⟩)

/-- Run a trace, collecting the per-step observations. -/
def runTrace (s : Sys) : List Op → Sys × List Obs
  | [] => (s, [])
  | op :: ops =>
    let p := stepSys s op
    let q := runTrace p.1 ops
    (q.1, p.2 :: q.2)

/-- States reachable from the empty deployment. -/
inductive Reach : Sys → Prop where
  | start : Reach Sys.start
  | step (s : Sys) (op : Op) : Reach s → Reach (stepSys s op).1

/-- Session-key states reachable by create / validate / revoke /
update_limits. -/
inductive SessReach : SessionKey → Prop where
  | created (owner spk ptx ttl : Nat) (expiry : Int) (progs : List Pubkey)
      (now : Int) (bump : Nat) :
      SessReach (create_session_key owner spk ptx ttl expiry progs now bump)
  | validated (sk : SessionKey) (pid amt : Nat) (now : Int)
      (r : SessionKey × Option SessErr) :
      SessReach sk → validate_session sk pid amt now = some r → SessReach r.1
  | revoked (sk : SessionKey) : SessReach sk → SessReach (revoke_session_key sk)
  | updated (sk : SessionKey) (ptx ttl : Nat) :
      SessReach sk → SessReach (update_limits sk ptx ttl)

/-- Session-key states reachable without `update_limits`. -/
inductive SessReachNU : SessionKey → Prop where
  | created (owner spk ptx ttl : Nat) (expiry : Int) (progs : List Pubkey)
      (now : Int) (bump : Nat) :
      SessReachNU (create_session_key owner spk ptx ttl expiry progs now bump)
  | validated (sk : SessionKey) (pid amt : Nat) (now : Int)
      (r : SessionKey × Option SessErr) :
      SessReachNU sk → validate_session sk pid amt now = some r → SessReachNU r.1
  | revoked (sk : SessionKey) : SessReachNU sk → SessReachNU (revoke_session_key sk)

/-! ### Concrete states and traces used in witnesses and counterexamples -/

/-- A session key with caps 50/100, expiry 1000, allow-list `[7]`. -/
def cskA : SessionKey := create_session_key 0 1 50 100 1000 [7] 0 0

/-- A session key with caps 100/100, expiry 1000, allow-list `[7]`. -/
def cskB : SessionKey := create_session_key 0 1 100 100 1000 [7] 0 0

/-- `cskB` after one successful `validate_session` of amount 40. -/
def cskB40 : SessionKey := { cskB with spent_amount := 40 }

/-- `cskB40` after `update_limits 50 30`: the total cap is now below the
already-spent amount. -/
def cskBad : SessionKey := update_limits cskB40 50 30

/-- A session key created with an 11-entry allow-list. -/
def csk11 : SessionKey :=
  create_session_key 0 1 50 100 1000 [1, 2, 3, 4, 5, 6, 7, 8, 9, 10, 11] 0 0

/-- A fresh vault: 100 per cycle, every 10 seconds, 3 cycles, created at
time 0. -/
def vA : Vault := init_vault 0 0 0 100 10 3 0 0

/-- The vault of `traceCompleted` after its single cycle: all cycles
executed, status Completed. -/
def vCompleted : Vault :=
  { owner := 0, source_mint := 0, dest_mint := 0, amount_per_cycle := 100,
    frequency_seconds := 10, total_cycles := 1, executed_cycles := 1,
    total_deposited := 100, total_received := 999, last_execution := 50,
    next_execution := 60, status := Vault.STATUS_COMPLETED, bump := 0 }

/-- Vault creation, a deposit, and a successful cycle — with no session
account ever created or validated. -/
def traceNoAuth : List Op :=
  [Op.initVault 100 10 3 0, Op.depositOp 500, Op.execDca 5 999 50 0]

/-- A successful `validate_session` (spent 40) followed by a cycle that
fails its slippage check after the outbound transfer. -/
def traceSpentNoCycle : List Op :=
  [Op.createSession 1 100 100 1000 [7] 0, Op.validateSession 7 40 5,
   Op.initVault 100 10 3 0, Op.depositOp 500, Op.execDca 5 0 50 1000]

/-- A single-cycle vault driven to Completed. -/
def traceCompleted : List Op :=
  [Op.initVault 100 10 1 0, Op.depositOp 100, Op.execDca 5 999 50 0]

/-- Initialize at time 0 (frequency 10), pause, resume at time 5. -/
def traceResumed : List Op :=
  [Op.initVault 100 10 3 0, Op.pauseOp, Op.resumeOp 5]

/-- Initialize at time 0 (frequency 10) and fund the vault. -/
def traceFunded : List Op :=
  [Op.initVault 100 10 2 0, Op.depositOp 500]

/-! ## Helper lemmas -/

theorem reach_runTrace (ops : List Op) (s : Sys) (h : Reach s) :
    Reach (runTrace s ops).1 := by
  induction ops generalizing s with
  | nil => exact h
  | cons op ops ih => exact ih (stepSys s op).1 (Reach.step s op h)

theorem findLoop_eq_of_le (arr : List Pubkey) (pid : Pubkey) :
    ∀ rem i, i + rem ≤ arr.length →
      findLoop arr pid i rem = some (decide (pid ∈ (arr.drop i).take rem)) := by
  intro rem
  induction rem with
  | zero => intro i h; simp [findLoop]
  | succ rem ih =>
    intro i h
    have hi : i < arr.length := by omega
    have hget : arr[i]? = some arr[i] := List.getElem?_eq_getElem hi
    rw [List.drop_eq_getElem_cons hi, List.take_succ_cons]
    by_cases hp : arr[i] = pid
    · simp [findLoop, hget, hp]
    · have hrec := ih (i + 1) (by omega)
      simp [findLoop, hget, hp, hrec, List.mem_cons, Ne.symm hp]

theorem findLoop_oob (arr : List Pubkey) (pid : Pubkey) (hnot : pid ∉ arr) :
    ∀ rem i, arr.length < i + rem → i ≤ arr.length →
      findLoop arr pid i rem = none := by
  intro rem
  induction rem with
  | zero => intro i h1 h2; omega
  | succ rem ih =>
    intro i h1 h2
    rcases eq_or_lt_of_le h2 with heq | hlt
    · have hget : arr[i]? = none := List.getElem?_eq_none (le_of_eq heq.symm)
      simp [findLoop, hget]
    · have hget : arr[i]? = some arr[i] := List.getElem?_eq_getElem hlt
      have hne : ¬ arr[i] = pid := fun hh => hnot (hh ▸ List.getElem_mem hlt)
      simp [findLoop, hget, hne, ih (i + 1) (by omega) (by omega)]

/-! ## Claims -/

/-- C3: for every well-formed authorization state and every (target, amount),
`validate_session` succeeds — incrementing `spent_amount` by exactly the
amount — iff the key is active, unexpired, the amount is within the
per-transaction cap, `spent + amount` is within the total cap, and the
target program is in the allow-list; otherwise it fails with exactly the
error of the first violated check, in source order, leaving the state
unchanged. -/
theorem validate_session_correct (sk : SessionKey) (program_id amount : Nat)
    (now : Int) (hwf : sk.allowed_programs_count ≤ sk.allowed_programs.length) :
    (validate_session sk program_id amount now =
        some ({ sk with spent_amount := sk.spent_amount + amount }, none) ↔
      (sk.is_active = true ∧ now < sk.expiry_timestamp ∧
       amount ≤ sk.max_amount_per_tx ∧
       sk.spent_amount + amount ≤ sk.max_total_amount ∧
       program_id ∈ sk.allowed_programs.take sk.allowed_programs_count)) ∧
    (sk.is_active = false →
      validate_session sk program_id amount now =
        some (sk, some SessErr.SessionKeyNotActive)) ∧
    (sk.is_active = true → sk.expiry_timestamp ≤ now →
      validate_session sk program_id amount now =
        some (sk, some SessErr.SessionKeyExpired)) ∧
    (sk.is_active = true → now < sk.expiry_timestamp →
      sk.max_amount_per_tx < amount →
      validate_session sk program_id amount now =
        some (sk, some SessErr.AmountExceedsPerTxLimit)) ∧
    (sk.is_active = true → now < sk.expiry_timestamp →
      amount ≤ sk.max_amount_per_tx →
      sk.max_total_amount < sk.spent_amount + amount →
      validate_session sk program_id amount now =
        some (sk, some SessErr.AmountExceedsTotalLimit)) ∧
    (sk.is_active = true → now < sk.expiry_timestamp →
      amount ≤ sk.max_amount_per_tx →
      sk.spent_amount + amount ≤ sk.max_total_amount →
      program_id ∉ sk.allowed_programs.take sk.allowed_programs_count →
      validate_session sk program_id amount now =
        some (sk, some SessErr.ProgramNotAllowed)) := by
  have hfl : findLoop sk.allowed_programs program_id 0 sk.allowed_programs_count
      = some (decide (program_id ∈
          sk.allowed_programs.take sk.allowed_programs_count)) := by
    have := findLoop_eq_of_le sk.allowed_programs program_id
      sk.allowed_programs_count 0 (by omega)
    simpa using this
  refine ⟨?_, ?_, ?_, ?_, ?_, ?_⟩
  · constructor
    · intro h
      by_cases h1 : sk.is_active
      · by_cases h2 : now < sk.expiry_timestamp
        · by_cases h3 : amount ≤ sk.max_amount_per_tx
          · by_cases h4 : sk.spent_amount + amount ≤ sk.max_total_amount
            · by_cases h5 : program_id ∈
                  sk.allowed_programs.take sk.allowed_programs_count
              · exact ⟨h1, h2, h3, h4, h5⟩
              · simp [validate_session, hfl, h1, h2, h3, h4, h5] at h
            · simp [validate_session, h1, h2, h3, h4] at h
          · simp [validate_session, h1, h2, h3] at h
        · simp [validate_session, h1, h2] at h
      · simp [validate_session, h1] at h
    · rintro ⟨h1, h2, h3, h4, h5⟩
      simp [validate_session, hfl, h1, h2, h3, h4, h5]
  · intro h1; simp [validate_session, h1]
  · intro h1 h2; simp [validate_session, h1, not_lt.mpr h2]
  · intro h1 h2 h3; simp [validate_session, h1, h2, not_le.mpr h3]
  · intro h1 h2 h3 h4; simp [validate_session, h1, h2, h3, not_le.mpr h4]
  · intro h1 h2 h3 h4 h5; simp [validate_session, hfl, h1, h2, h3, h4, h5]

/-- C3 witness: spec scenario — caps 50/100, target 7 allowed, amount 40
validates successfully and sets `spent_amount = 40`. -/
theorem validate_session_correct_witness :
    validate_session cskA 7 40 5 =
      some ({ cskA with spent_amount := cskA.spent_amount + 40 }, none) :=
  (validate_session_correct cskA 7 40 5 (by decide)).1.mpr (by decide)

/-- C4 counterexample: `update_limits` has no floor check, so a state with
`spent_amount = 40` and `max_total_amount = 30` is reachable from create by
validate then update_limits — refuting `spent <= totalCap` over sequences
that include `updateLimits`. -/
theorem update_limits_breaks_cap :
    SessReach cskBad ∧ cskBad.max_total_amount < cskBad.spent_amount := by
  constructor
  · have h0 : SessReach cskB := SessReach.created 0 1 100 100 1000 [7] 0 0
    have h1 : SessReach cskB40 :=
      SessReach.validated cskB 7 40 5 (cskB40, none) h0 (by decide)
    exact SessReach.updated cskB40 50 30 h1
  · decide

/-- C4 (amended): in every state reachable from create by validate and
revoke (without `update_limits`), `spent_amount ≤ max_total_amount`; and
across every operation — validate (success or failure), revoke, and
update_limits — `spent_amount` never decreases. -/
theorem session_spent_invariant :
    (∀ sk, SessReachNU sk → sk.spent_amount ≤ sk.max_total_amount) ∧
    (∀ sk pid amt now r, validate_session sk pid amt now = some r →
      sk.spent_amount ≤ r.1.spent_amount) ∧
    (∀ sk, (revoke_session_key sk).spent_amount = sk.spent_amount) ∧
    (∀ sk ptx ttl, (update_limits sk ptx ttl).spent_amount = sk.spent_amount) := by
  refine ⟨?_, ?_, ?_, ?_⟩
  · intro sk h
    induction h with
    | created owner spk ptx ttl expiry progs now bump =>
      simp [create_session_key]
    | validated sk pid amt now r h hv ih =>
      unfold validate_session at hv
      split_ifs at hv with h1 h2 h3 h4
      all_goals
        first
        | (obtain rfl := Option.some.inj hv; exact ih)
        | (cases hfind : findLoop sk.allowed_programs pid 0 sk.allowed_programs_count with
           | none => rw [hfind] at hv; exact Option.noConfusion hv
           | some b =>
             rw [hfind] at hv
             cases b with
             | false => obtain rfl := Option.some.inj hv; exact ih
             | true =>
               obtain rfl := Option.some.inj hv
               simpa using h4)
    | revoked sk h ih => simpa [revoke_session_key] using ih
  · intro sk pid amt now r hv
    unfold validate_session at hv
    split_ifs at hv with h1 h2 h3 h4
    all_goals
      first
      | (obtain rfl := Option.some.inj hv; exact le_refl _)
      | (cases hfind : findLoop sk.allowed_programs pid 0 sk.allowed_programs_count with
         | none => rw [hfind] at hv; exact Option.noConfusion hv
         | some b =>
           rw [hfind] at hv
           cases b with
           | false => obtain rfl := Option.some.inj hv; exact le_refl _
           | true => obtain rfl := Option.some.inj hv; exact Nat.le_add_right _ _)
  · intro sk; rfl
  · intro sk ptx ttl; rfl

/-- C4 witness: the no-update invariant applied to the concrete reachable
state `cskB40` gives `40 ≤ 100`. -/
theorem session_spent_invariant_witness :
    cskB40.spent_amount ≤ cskB40.max_total_amount :=
  session_spent_invariant.1 cskB40
    (SessReachNU.validated cskB 7 40 5 (cskB40, none)
      (SessReachNU.created 0 1 100 100 1000 [7] 0 0) (by decide))

/-- C8: `create_session_key` on an 11-entry allow-list does NOT fail: it
returns an active key whose stored array holds only the first 10 entries
while `allowed_programs_count` is 11 — silent truncation, contradicting
the specified explicit rejection. -/
theorem create_session_key_truncates :
    csk11.is_active = true ∧ csk11.allowed_programs_count = 11 ∧
    csk11.allowed_programs = [1, 2, 3, 4, 5, 6, 7, 8, 9, 10] := by decide

/-- C9 counterexample: on the key created with 11 allowed programs, a
`validate_session` whose target matches the first stored entry reaches the
allow-list loop yet breaks at index 0 — it returns successfully, with no
out-of-bounds access, refuting the claim for ALL loop-reaching calls. -/
theorem validate_early_match_no_oob :
    csk11.allowed_programs_count = 11 ∧ csk11.allowed_programs.length = 10 ∧
    validate_session csk11 1 5 0 =
      some ({ csk11 with spent_amount := 5 }, none) := by decide

/-- C9 (amended): a key created with more than 10 (and fewer than 256)
allowed programs stores the full list length as its count while the array
keeps only the first 10 entries, so any `validate_session` that passes the
active/expiry/per-tx/total checks with a target not among the stored 10
entries runs the loop past index 9: the array access is out of bounds and
the call aborts. -/
theorem validate_session_oob (progs : List Pubkey) (owner spk ptx ttl : Nat)
    (expiry cnow : Int) (bump : Nat) (pid amount : Nat) (now : Int)
    (h10 : 10 < progs.length) (h256 : progs.length < 256)
    (hexp : now < expiry) (hamt : amount ≤ ptx) (htot : amount ≤ ttl)
    (hpid : pid ∉ progs.take 10) :
    validate_session (create_session_key owner spk ptx ttl expiry progs cnow bump)
      pid amount now = none := by
  have harr : (create_session_key owner spk ptx ttl expiry progs cnow bump).allowed_programs
      = progs.take 10 := by
    simp [create_session_key, storePrograms, Nat.sub_eq_zero_of_le (le_of_lt h10)]
  have hcount : (create_session_key owner spk ptx ttl expiry progs cnow bump).allowed_programs_count
      = progs.length := by
    simp [create_session_key, Nat.mod_eq_of_lt h256]
  have hlen : (progs.take 10).length = 10 := by
    rw [List.length_take]; omega
  have hloop : findLoop (progs.take 10) pid 0 progs.length = none := by
    apply findLoop_oob (progs.take 10) pid hpid progs.length 0 <;> omega
  unfold validate_session
  rw [harr, hcount, hloop]
  simp [create_session_key, hexp, hamt, htot]

/-- C9 witness: the concrete 11-entry key aborts validating target 99. -/
theorem validate_session_oob_witness :
    validate_session csk11 99 5 0 = none :=
  validate_session_oob [1, 2, 3, 4, 5, 6, 7, 8, 9, 10, 11] 0 1 50 100 1000 0 0
    99 5 0 (by decide) (by decide) (by decide) (by decide) (by decide) (by decide)

/-- C7: `execute_dca` checks too-early, cycles-exhausted, not-active and
insufficient-balance in that order, each before any transfer: on any such
failure the vault and the custody balance are returned unchanged, no
outbound transfer is issued, and the error is the one of the first failed
check. -/
theorem execute_dca_preconditions (auth : Pubkey) (v : Vault)
    (srcBal destBefore destAfter : Nat) (now : Int) (minOut : Nat) :
    (now < v.next_execution →
      execute_dca auth v srcBal destBefore destAfter now minOut =
        ⟨v, srcBal, false, some DcaErr.TooEarlyToExecute⟩) ∧
    (v.next_execution ≤ now → v.total_cycles ≤ v.executed_cycles →
      execute_dca auth v srcBal destBefore destAfter now minOut =
        ⟨v, srcBal, false, some DcaErr.AllCyclesCompleted⟩) ∧
    (v.next_execution ≤ now → v.executed_cycles < v.total_cycles →
      ¬ v.status = Vault.STATUS_ACTIVE →
      execute_dca auth v srcBal destBefore destAfter now minOut =
        ⟨v, srcBal, false, some DcaErr.VaultNotActive⟩) ∧
    (v.next_execution ≤ now → v.executed_cycles < v.total_cycles →
      v.status = Vault.STATUS_ACTIVE → srcBal < v.amount_per_cycle →
      execute_dca auth v srcBal destBefore destAfter now minOut =
        ⟨v, srcBal, false, some DcaErr.InsufficientBalance⟩) := by
  refine ⟨?_, ?_, ?_, ?_⟩
  · intro h; simp [execute_dca, not_le.mpr h]
  · intro h1 h2; simp [execute_dca, h1, not_lt.mpr h2]
  · intro h1 h2 h3; simp [execute_dca, h1, h2, h3]
  · intro h1 h2 h3 h4; simp [execute_dca, h1, h2, h3, not_le.mpr h4]

/-- C7 witness: each of the four precondition failures at a concrete
vault, with nothing mutated and no outbound transfer. -/
theorem execute_dca_preconditions_witness :
    execute_dca 0 vA 0 0 0 5 0 = ⟨vA, 0, false, some DcaErr.TooEarlyToExecute⟩ ∧
    execute_dca 0 { vA with executed_cycles := 3 } 0 0 0 50 0 =
      ⟨{ vA with executed_cycles := 3 }, 0, false, some DcaErr.AllCyclesCompleted⟩ ∧
    execute_dca 0 (pause_vault vA) 0 0 0 50 0 =
      ⟨pause_vault vA, 0, false, some DcaErr.VaultNotActive⟩ ∧
    execute_dca 0 vA 0 0 0 50 0 = ⟨vA, 0, false, some DcaErr.InsufficientBalance⟩ :=
  ⟨(execute_dca_preconditions 0 vA 0 0 0 5 0).1 (by decide),
   (execute_dca_preconditions 0 { vA with executed_cycles := 3 } 0 0 0 50 0).2.1
     (by decide) (by decide),
   (execute_dca_preconditions 0 (pause_vault vA) 0 0 0 50 0).2.2.1
     (by decide) (by decide) (by decide),
   (execute_dca_preconditions 0 vA 0 0 0 50 0).2.2.2
     (by decide) (by decide) (by decide) (by decide)⟩

/-- C2: when the timing, cycle-count, status and balance preconditions
hold, the received amount is the truncated (saturating, never negative)
difference of the destination balance after and before the transfer; if it
is below `min_amount_out` the call fails SlippageExceeded with the vault —
hence `executed_cycles` and `total_received` — unchanged, while the
outbound `amount_per_cycle` has nonetheless left custody; otherwise the
call succeeds and credits exactly that difference. -/
theorem execute_dca_slippage (auth : Pubkey) (v : Vault)
    (srcBal destBefore destAfter : Nat) (now : Int) (minOut : Nat)
    (h1 : v.next_execution ≤ now) (h2 : v.executed_cycles < v.total_cycles)
    (h3 : v.status = Vault.STATUS_ACTIVE) (h4 : v.amount_per_cycle ≤ srcBal) :
    (destAfter - destBefore < minOut →
      execute_dca auth v srcBal destBefore destAfter now minOut =
        ⟨v, srcBal - v.amount_per_cycle, true, some DcaErr.SlippageExceeded⟩) ∧
    (minOut ≤ destAfter - destBefore →
      (execute_dca auth v srcBal destBefore destAfter now minOut).err = none ∧
      (execute_dca auth v srcBal destBefore destAfter now minOut).vault.total_received =
        v.total_received + (destAfter - destBefore) ∧
      (execute_dca auth v srcBal destBefore destAfter now minOut).srcBal =
        srcBal - v.amount_per_cycle ∧
      (execute_dca auth v srcBal destBefore destAfter now minOut).outbound = true) := by
  constructor
  · intro h; simp [execute_dca, h1, h2, h3, h4, not_le.mpr h]
  · intro h; simp [execute_dca, h1, h2, h3, h4, h]

/-- C2 witness: spec scenario 5 — outbound 100 leaves custody, the swap
yields 500 < 1000, the call fails SlippageExceeded with the vault
unchanged; and a successful variant credits the balance delta. -/
theorem execute_dca_slippage_witness :
    execute_dca 0 vA 500 0 500 50 1000 =
      ⟨vA, 400, true, some DcaErr.SlippageExceeded⟩ ∧
    (execute_dca 0 vA 500 0 2000 50 1000).err = none ∧
    (execute_dca 0 vA 500 0 2000 50 1000).vault.total_received =
      vA.total_received + 2000 :=
  ⟨(execute_dca_slippage 0 vA 500 0 500 50 1000
      (by decide) (by decide) (by decide) (by decide)).1 (by decide),
   ((execute_dca_slippage 0 vA 500 0 2000 50 1000
      (by decide) (by decide) (by decide) (by decide)).2 (by decide)).1,
   ((execute_dca_slippage 0 vA 500 0 2000 50 1000
      (by decide) (by decide) (by decide) (by decide)).2 (by decide)).2.1⟩

/-- C6 counterexample: after a resume at a time different from
`last_execution`, `next_execution ≠ last_execution + frequency_seconds`
(resume never updates `last_execution`); and after a successful cycle run
late, `next_execution ≠ lastExecution_before_call + frequency_seconds` —
both reachable states. -/
theorem next_execution_counterexample :
    (Reach (runTrace Sys.start traceResumed).1 ∧
     (runTrace Sys.start traceResumed).1.vault.map Vault.next_execution = some 15 ∧
     (runTrace Sys.start traceResumed).1.vault.map
       (fun v => v.last_execution + v.frequency_seconds) = some 10 ∧
     (15 : Int) ≠ 10) ∧
    (Reach (runTrace Sys.start traceFunded).1 ∧
     (runTrace Sys.start traceFunded).1.vault.map Vault.last_execution = some 0 ∧
     (runTrace Sys.start traceFunded).1.vault.map Vault.frequency_seconds = some 10 ∧
     (stepSys (runTrace Sys.start traceFunded).1 (Op.execDca 5 999 50 0)).1.vault.map
       Vault.executed_cycles = some 1 ∧
     (stepSys (runTrace Sys.start traceFunded).1 (Op.execDca 5 999 50 0)).1.vault.map
       Vault.next_execution = some 60 ∧
     (60 : Int) ≠ 0 + 10) :=
  ⟨⟨reach_runTrace traceResumed Sys.start Reach.start, by decide, by decide, by decide⟩,
   ⟨reach_runTrace traceFunded Sys.start Reach.start, by decide, by decide,
    by decide, by decide, by decide⟩⟩

/-- C6 (amended): after any successful `execute_dca`,
`next_execution = last_execution + frequency_seconds` holds with
`last_execution` the POST-call value, which equals the call-time clock
(not the pre-call `last_execution`); after a resume, `next_execution`
becomes `now + frequency_seconds` while `last_execution` is unchanged, so
the invariant relates them only when the resume happens at
`last_execution`. -/
theorem next_execution_after_success (auth : Pubkey) (v : Vault)
    (srcBal destBefore destAfter : Nat) (now : Int) (minOut : Nat) :
    ((execute_dca auth v srcBal destBefore destAfter now minOut).err = none →
      (execute_dca auth v srcBal destBefore destAfter now minOut).vault.next_execution =
        (execute_dca auth v srcBal destBefore destAfter now minOut).vault.last_execution
          + v.frequency_seconds ∧
      (execute_dca auth v srcBal destBefore destAfter now minOut).vault.last_execution
        = now) ∧
    (v.status = Vault.STATUS_PAUSED →
      (resume_vault v now).1.next_execution = now + v.frequency_seconds ∧
      (resume_vault v now).1.last_execution = v.last_execution) := by
  constructor
  · intro h
    unfold execute_dca at h ⊢
    split_ifs at h with g1 g2 g3 g4 <;>
      by_cases g5 : destAfter - destBefore < minOut <;> simp_all
  · intro h; simp [resume_vault, h]

/-- C6 witness: a concrete successful cycle at time 50 and a concrete
resume of a paused vault at time 5. -/
theorem next_execution_after_success_witness :
    ((execute_dca 0 vA 500 0 2000 50 0).vault.next_execution =
      (execute_dca 0 vA 500 0 2000 50 0).vault.last_execution
        + vA.frequency_seconds ∧
     (execute_dca 0 vA 500 0 2000 50 0).vault.last_execution = 50) ∧
    ((resume_vault (pause_vault vA) 5).1.next_execution =
      5 + (pause_vault vA).frequency_seconds ∧
     (resume_vault (pause_vault vA) 5).1.last_execution =
      (pause_vault vA).last_execution) :=
  ⟨(next_execution_after_success 0 vA 500 0 2000 50 0).1 (by decide),
   (next_execution_after_success 0 (pause_vault vA) 500 0 2000 5 0).2 (by decide)⟩

/-- C10: `execute_dca` never reads the `session_authority` signer: for any
two signers, the handler and the combined-system step produce identical
results and post-states. -/
theorem execute_dca_signer_independent :
    ∀ (a1 a2 : Pubkey) (v : Vault) (srcBal destBefore destAfter : Nat)
      (now : Int) (minOut : Nat) (s : Sys),
      execute_dca a1 v srcBal destBefore destAfter now minOut =
        execute_dca a2 v srcBal destBefore destAfter now minOut ∧
      stepSys s (Op.execDca a1 destAfter now minOut) =
        stepSys s (Op.execDca a2 destAfter now minOut) := by
  intro a1 a2 v srcBal destBefore destAfter now minOut s
  cases s with
  | mk sess vv sb db => cases vv <;> exact ⟨rfl, rfl⟩

/-! ### Step lemmas for the vault state machine -/

theorem execute_dca_cycles (auth : Pubkey) (v : Vault) (sb db da : Nat)
    (now : Int) (m : Nat) :
    v.executed_cycles ≤ (execute_dca auth v sb db da now m).vault.executed_cycles ∧
    (execute_dca auth v sb db da now m).vault.total_cycles = v.total_cycles ∧
    (v.executed_cycles ≤ v.total_cycles →
      (execute_dca auth v sb db da now m).vault.executed_cycles ≤
        (execute_dca auth v sb db da now m).vault.total_cycles) := by
  unfold execute_dca
  split_ifs with g1 g2 g3 g4 <;>
    by_cases g5 : da - db < m <;>
    by_cases g6 : v.total_cycles ≤ v.executed_cycles + 1 <;>
    simp_all <;> omega

theorem stepSys_vault_session_ops (s : Sys) :
    (∀ a b c d e f, (stepSys s (Op.createSession a b c d e f)).1.vault = s.vault) ∧
    (∀ pid amount now, (stepSys s (Op.validateSession pid amount now)).1.vault = s.vault) ∧
    ((stepSys s Op.revokeSession).1.vault = s.vault) ∧
    (∀ ptx ttl, (stepSys s (Op.updateLimits ptx ttl)).1.vault = s.vault) := by
  refine ⟨?_, ?_, ?_, ?_⟩
  · intro a b c d e f; cases hs : s.session <;> simp [stepSys, hs]
  · intro pid amount now
    cases hs : s.session with
    | none => simp [stepSys, hs]
    | some sk =>
      cases hres : validate_session sk pid amount now with
      | none => simp [stepSys, hs, hres]
      | some p =>
        obtain ⟨sk', e⟩ := p
        cases e <;> simp [stepSys, hs, hres]
  · cases hs : s.session <;> simp [stepSys, hs]
  · intro ptx ttl; cases hs : s.session <;> simp [stepSys, hs]

theorem stepSys_vault_init_some (s : Sys) (apc : Nat) (freq : Int) (tc : Nat)
    (now : Int) (v : Vault) (hv : s.vault = some v) :
    (stepSys s (Op.initVault apc freq tc now)).1.vault = some v := by
  simp [stepSys, hv]

theorem stepSys_vault_deposit (s : Sys) (amount : Nat) (v : Vault)
    (hv : s.vault = some v) :
    (stepSys s (Op.depositOp amount)).1.vault = some v ∨
    (stepSys s (Op.depositOp amount)).1.vault =
      some { v with total_deposited := v.total_deposited + amount } := by
  by_cases hst : v.status = Vault.STATUS_ACTIVE
  · right; simp [stepSys, hv, deposit, hst]
  · left; simp [stepSys, hv, deposit, hst]

theorem stepSys_vault_exec (s : Sys) (auth da : Nat) (now : Int) (m : Nat)
    (v : Vault) (hv : s.vault = some v) :
    (stepSys s (Op.execDca auth da now m)).1.vault =
      some (execute_dca auth v s.srcBal s.destBal da now m).vault := by
  simp [stepSys, hv]

theorem stepSys_vault_pause (s : Sys) (v : Vault) (hv : s.vault = some v) :
    (stepSys s Op.pauseOp).1.vault = some (pause_vault v) := by
  simp [stepSys, hv]

theorem stepSys_vault_resume (s : Sys) (now : Int) (v : Vault)
    (hv : s.vault = some v) :
    (v.status = Vault.STATUS_PAUSED →
      (stepSys s (Op.resumeOp now)).1.vault =
        some { v with status := Vault.STATUS_ACTIVE,
                      next_execution := now + v.frequency_seconds }) ∧
    (¬ v.status = Vault.STATUS_PAUSED →
      (stepSys s (Op.resumeOp now)).1.vault = some v) := by
  constructor <;> intro hst <;> simp [stepSys, hv, resume_vault, hst]

theorem stepSys_vault_close (s : Sys) (v : Vault) (hv : s.vault = some v) :
    (stepSys s Op.closeOp).1.vault = none := by
  simp [stepSys, hv]

/-- C5 (amended): across every operation of the combined system,
`executed_cycles` is non-decreasing with `total_cycles` constant, and in
every reachable state `executed_cycles ≤ total_cycles`; `execute_dca`
changes the status only from Active to Completed when the final cycle
succeeds, resume moves only Paused to Active, deposit never changes the
status — but `pause_vault` sets Paused from ANY status (there is no
precondition), so Completed→Paused is a real transition of the code. -/
theorem vault_state_machine :
    (∀ s op v v', s.vault = some v → (stepSys s op).1.vault = some v' →
      v.executed_cycles ≤ v'.executed_cycles ∧ v'.total_cycles = v.total_cycles) ∧
    (∀ s, Reach s → ∀ v, s.vault = some v → v.executed_cycles ≤ v.total_cycles) ∧
    (∀ s v, s.vault = some v →
      (stepSys s Op.pauseOp).1.vault = some (pause_vault v) ∧
      (pause_vault v).status = Vault.STATUS_PAUSED) ∧
    (∀ v now, v.status = Vault.STATUS_PAUSED →
      resume_vault v now =
        ({ v with status := Vault.STATUS_ACTIVE,
                  next_execution := now + v.frequency_seconds }, none)) ∧
    (∀ v now, ¬ v.status = Vault.STATUS_PAUSED →
      resume_vault v now = (v, some DcaErr.VaultNotPaused)) ∧
    (∀ auth v sb db da now m,
      (execute_dca auth v sb db da now m).vault.status = v.status ∨
      (v.status = Vault.STATUS_ACTIVE ∧
       (execute_dca auth v sb db da now m).vault.status = Vault.STATUS_COMPLETED ∧
       (execute_dca auth v sb db da now m).err = none ∧
       (execute_dca auth v sb db da now m).vault.executed_cycles = v.total_cycles)) ∧
    (∀ v sb amount, (deposit v sb amount).1.status = v.status) := by
  refine ⟨?_, ?_, ?_, ?_, ?_, ?_, ?_⟩
  · intro s op v v' hv hv'
    cases op with
    | createSession a b c d e f =>
      rw [(stepSys_vault_session_ops s).1 a b c d e f, hv] at hv'
      obtain rfl := Option.some.inj hv'
      exact ⟨le_refl _, rfl⟩
    | validateSession pid amount now =>
      rw [(stepSys_vault_session_ops s).2.1 pid amount now, hv] at hv'
      obtain rfl := Option.some.inj hv'
      exact ⟨le_refl _, rfl⟩
    | revokeSession =>
      rw [(stepSys_vault_session_ops s).2.2.1, hv] at hv'
      obtain rfl := Option.some.inj hv'
      exact ⟨le_refl _, rfl⟩
    | updateLimits ptx ttl =>
      rw [(stepSys_vault_session_ops s).2.2.2 ptx ttl, hv] at hv'
      obtain rfl := Option.some.inj hv'
      exact ⟨le_refl _, rfl⟩
    | initVault apc freq tc now =>
      rw [stepSys_vault_init_some s apc freq tc now v hv] at hv'
      obtain rfl := Option.some.inj hv'
      exact ⟨le_refl _, rfl⟩
    | depositOp amount =>
      rcases stepSys_vault_deposit s amount v hv with h | h <;> rw [h] at hv' <;>
        · obtain rfl := Option.some.inj hv'
          exact ⟨le_refl _, rfl⟩
    | execDca auth da now m =>
      rw [stepSys_vault_exec s auth da now m v hv] at hv'
      obtain rfl := Option.some.inj hv'
      exact ⟨(execute_dca_cycles auth v s.srcBal s.destBal da now m).1,
             (execute_dca_cycles auth v s.srcBal s.destBal da now m).2.1⟩
    | pauseOp =>
      rw [stepSys_vault_pause s v hv] at hv'
      obtain rfl := Option.some.inj hv'
      exact ⟨le_refl _, rfl⟩
    | resumeOp now =>
      by_cases hst : v.status = Vault.STATUS_PAUSED
      · rw [(stepSys_vault_resume s now v hv).1 hst] at hv'
        obtain rfl := Option.some.inj hv'
        exact ⟨le_refl _, rfl⟩
      · rw [(stepSys_vault_resume s now v hv).2 hst] at hv'
        obtain rfl := Option.some.inj hv'
        exact ⟨le_refl _, rfl⟩
    | closeOp =>
      rw [stepSys_vault_close s v hv] at hv'
      exact Option.noConfusion hv'
  · intro s h
    induction h with
    | start => intro v hv; exact Option.noConfusion hv
    | step s op hs ih =>
      intro v' hv'
      cases op with
      | createSession a b c d e f =>
        rw [(stepSys_vault_session_ops s).1 a b c d e f] at hv'
        exact ih v' hv'
      | validateSession pid amount now =>
        rw [(stepSys_vault_session_ops s).2.1 pid amount now] at hv'
        exact ih v' hv'
      | revokeSession =>
        rw [(stepSys_vault_session_ops s).2.2.1] at hv'
        exact ih v' hv'
      | updateLimits ptx ttl =>
        rw [(stepSys_vault_session_ops s).2.2.2 ptx ttl] at hv'
        exact ih v' hv'
      | initVault apc freq tc now =>
        cases hvv : s.vault with
        | some v =>
          rw [stepSys_vault_init_some s apc freq tc now v hvv] at hv'
          obtain rfl := Option.some.inj hv'
          exact ih v hvv
        | none =>
          have hstep : (stepSys s (Op.initVault apc freq tc now)).1.vault
              = some (init_vault 0 0 0 apc freq tc now 0) := by simp [stepSys, hvv]
          rw [hstep] at hv'
          obtain rfl := Option.some.inj hv'
          simp [init_vault]
      | depositOp amount =>
        cases hvv : s.vault with
        | none => simp [stepSys, hvv] at hv'
        | some v =>
          rcases stepSys_vault_deposit s amount v hvv with h | h <;> rw [h] at hv' <;>
            · obtain rfl := Option.some.inj hv'
              exact ih v hvv
      | execDca auth da now m =>
        cases hvv : s.vault with
        | none => simp [stepSys, hvv] at hv'
        | some v =>
          rw [stepSys_vault_exec s auth da now m v hvv] at hv'
          obtain rfl := Option.some.inj hv'
          exact (execute_dca_cycles auth v s.srcBal s.destBal da now m).2.2 (ih v hvv)
      | pauseOp =>
        cases hvv : s.vault with
        | none => simp [stepSys, hvv] at hv'
        | some v =>
          rw [stepSys_vault_pause s v hvv] at hv'
          obtain rfl := Option.some.inj hv'
          exact ih v hvv
      | resumeOp now =>
        cases hvv : s.vault with
        | none => simp [stepSys, hvv] at hv'
        | some v =>
          by_cases hst : v.status = Vault.STATUS_PAUSED
          · rw [(stepSys_vault_resume s now v hvv).1 hst] at hv'
            obtain rfl := Option.some.inj hv'
            exact ih v hvv
          · rw [(stepSys_vault_resume s now v hvv).2 hst] at hv'
            obtain rfl := Option.some.inj hv'
            exact ih v hvv
      | closeOp =>
        cases hvv : s.vault with
        | none => simp [stepSys, hvv] at hv'
        | some v =>
          rw [stepSys_vault_close s v hvv] at hv'
          exact Option.noConfusion hv'
  · intro s v hv; exact ⟨stepSys_vault_pause s v hv, rfl⟩
  · intro v now h; simp [resume_vault, h]
  · intro v now h; simp [resume_vault, h]
  · intro auth v sb db da now m
    unfold execute_dca
    split_ifs with g1 g2 g3 g4
    · by_cases g5 : m ≤ da - db
      · by_cases g6 : v.total_cycles ≤ v.executed_cycles + 1
        · right
          refine ⟨g3, ?_, ?_, ?_⟩
          · simp [g5, g6]
          · simp [g5]
          · simp [g5]; omega
        · left; simp [g5, g6]
      · left; simp [g5]
    · left; rfl
    · left; rfl
    · left; rfl
    · left; rfl
  · intro v sb amount; unfold deposit; split_ifs <;> rfl

/-- C5 counterexample: a Completed vault is reachable and `pause_vault`
(which has no status check) moves it to Paused — the claimed transition
relation forbids Completed→Paused, but the code performs it. -/
theorem completed_to_paused :
    Reach (runTrace Sys.start traceCompleted).1 ∧
    (runTrace Sys.start traceCompleted).1.vault.map Vault.status =
      some Vault.STATUS_COMPLETED ∧
    (stepSys (runTrace Sys.start traceCompleted).1 Op.pauseOp).1.vault.map
      Vault.status = some Vault.STATUS_PAUSED := by
  refine ⟨reach_runTrace traceCompleted Sys.start Reach.start, ?_, ?_⟩ <;> decide

/-- C5 witness: the cycle-bound invariant at the concrete reachable
Completed state, and deposit leaving a concrete status unchanged. -/
theorem vault_state_machine_witness :
    vCompleted.executed_cycles ≤ vCompleted.total_cycles ∧
    (deposit vA 0 100).1.status = vA.status :=
  ⟨vault_state_machine.2.1 (runTrace Sys.start traceCompleted).1
     (reach_runTrace traceCompleted Sys.start Reach.start) vCompleted (by decide),
   vault_state_machine.2.2.2.2.2.2 vA 0 100⟩

/-- C1 counterexample: in the first trace a vault cycle moves funds out of
custody although no session account was ever created and no
`validate_session` ever succeeded; in the second a `validate_session`
commits `spent_amount = 40` although the only cycle of the execution fails
its slippage check after moving funds (`executed_cycles` stays 0) — both
halves of the claimed coordinator contract are violated by the code. -/
theorem no_coordinator_counterexample :
    ((runTrace Sys.start traceNoAuth).2.map Obs.movedFunds = [false, false, true] ∧
     (runTrace Sys.start traceNoAuth).2.map Obs.validateOk = [false, false, false] ∧
     (runTrace Sys.start traceNoAuth).1.session = none) ∧
    ((runTrace Sys.start traceSpentNoCycle).1.session.map SessionKey.spent_amount =
       some 40 ∧
     (runTrace Sys.start traceSpentNoCycle).1.vault.map Vault.executed_cycles =
       some 0 ∧
     (runTrace Sys.start traceSpentNoCycle).2.map Obs.movedFunds =
       [false, false, false, false, true]) := by
  exact ⟨⟨by decide, by decide, by decide⟩, ⟨by decide, by decide, by decide⟩⟩

/-- C1 (amended): the source implements no execution coordinator — an
`execute_dca` step neither reads nor writes the session account, so its
effect on the vault, custody and destination balances and its observations
are identical for any session component; and a successful
`validate_session` commits `spent_amount += amount` by itself,
independently of whether any vault cycle ever runs or succeeds. -/
theorem no_coordinator :
    (∀ (sess1 sess2 : Option SessionKey) (vv : Option Vault) (sb db : Nat)
       (auth da : Nat) (now : Int) (m : Nat),
      (stepSys ⟨sess1, vv, sb, db⟩ (Op.execDca auth da now m)).1.vault =
        (stepSys ⟨sess2, vv, sb, db⟩ (Op.execDca auth da now m)).1.vault ∧
      (stepSys ⟨sess1, vv, sb, db⟩ (Op.execDca auth da now m)).1.srcBal =
        (stepSys ⟨sess2, vv, sb, db⟩ (Op.execDca auth da now m)).1.srcBal ∧
      (stepSys ⟨sess1, vv, sb, db⟩ (Op.execDca auth da now m)).1.destBal =
        (stepSys ⟨sess2, vv, sb, db⟩ (Op.execDca auth da now m)).1.destBal ∧
      (stepSys ⟨sess1, vv, sb, db⟩ (Op.execDca auth da now m)).2 =
        (stepSys ⟨sess2, vv, sb, db⟩ (Op.execDca auth da now m)).2 ∧
      (stepSys ⟨sess1, vv, sb, db⟩ (Op.execDca auth da now m)).1.session = sess1) ∧
    (∀ sk pid amt now r, validate_session sk pid amt now = some r → r.2 = none →
      r.1.spent_amount = sk.spent_amount + amt) := by
  constructor
  · intro sess1 sess2 vv sb db auth da now m
    cases vv <;> exact ⟨rfl, rfl, rfl, rfl, rfl⟩
  · intro sk pid amt now r hv hnone
    unfold validate_session at hv
    split_ifs at hv with h1 h2 h3 h4
    all_goals
      first
      | (obtain rfl := Option.some.inj hv; simp at hnone)
      | (cases hfind : findLoop sk.allowed_programs pid 0 sk.allowed_programs_count with
         | none => rw [hfind] at hv; exact Option.noConfusion hv
         | some b =>
           rw [hfind] at hv
           cases b with
           | false => obtain rfl := Option.some.inj hv; simp at hnone
           | true => obtain rfl := Option.some.inj hv; rfl)

/-- C1 witness: the spent-commit fact applied to the concrete successful
validation of 40 against `cskB`, whose cycle never runs. -/
theorem no_coordinator_witness :
    cskB40.spent_amount = cskB.spent_amount + 40 :=
  no_coordinator.2 cskB 7 40 5 (cskB40, none) (by decide) rfl

end DcaVerify
